import Mathlib

/-!
# Unique request tracker: a verification development

Shallow embedding of the windowed de-duplication service
(`main.go`, `extension3/main.go`, `redis/main.go`).

Modelling conventions.

* Go `int` identifiers are embedded as `Int` (no arithmetic is ever done on an
  identifier, so the 64-bit range plays no role except in query parsing, where
  it is checked explicitly).
* A `sync.Map` whose keys are `int` and whose values are `bool` is a list of
  key/value entries in insertion order; `LoadOrStore` and `Range` follow the
  library contract.
* `Count` is a `Nat`: the loop `count++` runs once per stored entry and a map
  cannot hold `2^63` entries, so the Go `int` counter never wraps.
* The mutex of the tracker is embedded by making every method one atomic step
  of the state; interleavings are lists of such steps. Two method calls of one
  goroutine are two steps: other goroutines may act in between.
* Output effects (log lines, outbound HTTP GETs, Kafka writes) are returned as
  explicit lists.
-/

namespace Verve

/-! ## sync.Map -/

/-- The `sync.Map` used by the tracker: `int` keys, `bool` values. -/
structure SyncMap where
  entries : List (Int × Bool)
deriving DecidableEq

/-- The zero value `sync.Map{}`. -/
def SyncMap.empty : SyncMap := ⟨[]⟩

/-- `Load` returns the value stored for a key, if any. -/
def SyncMap.Load (m : SyncMap) (key : Int) : Option Bool :=
  (m.entries.find? (fun e => e.1 == key)).map Prod.snd

/-- `LoadOrStore` returns the existing value for the key if present; otherwise
it stores and returns the given value. The second component of the result is
`loaded`: true if the value was loaded, false if stored. -/
def SyncMap.LoadOrStore (m : SyncMap) (key : Int) (value : Bool) : (Bool × Bool) × SyncMap :=
  match m.Load key with
  | some actual => ((actual, true), m)
  | none => ((value, false), ⟨m.entries ++ [(key, value)]⟩)

/-- The loop of `Range`: calls `f` on each entry in turn, threading the
captured variables `σ`; stops when `f` returns false. -/
def SyncMap.rangeLoop {σ : Type} (f : Int → Bool → σ → σ × Bool) : List (Int × Bool) → σ → σ
  | [], acc => acc
  | (k, v) :: rest, acc =>
    let r := f k v acc
    if r.2 then SyncMap.rangeLoop f rest r.1 else r.1

/-- `Range` calls `f` sequentially for each key and value in the map. -/
def SyncMap.Range {σ : Type} (m : SyncMap) (f : Int → Bool → σ → σ × Bool) (init : σ) : σ :=
  SyncMap.rangeLoop f m.entries init

/-! ## UniqueRequestTracker (main.go, extension3/main.go) -/

/-- The tracker: the in-memory store (the mutex is the atomicity of the methods). -/
structure UniqueRequestTracker where
  uniqueRequests : SyncMap
deriving DecidableEq

/-- `NewUniqueRequestTracker` returns `&UniqueRequestTracker{}`. -/
def NewUniqueRequestTracker : UniqueRequestTracker := ⟨SyncMap.empty⟩

/-- `AddIfUnique` adds a request ID if it is unique; returns true if it is unique. -/
def UniqueRequestTracker.AddIfUnique (tracker : UniqueRequestTracker) (id : Int) :
    Bool × UniqueRequestTracker :=
  let r := tracker.uniqueRequests.LoadOrStore id true
  if !r.1.2 then (true, ⟨r.2⟩) else (false, ⟨r.2⟩)

/-- `Reset` replaces the store by `sync.Map{}`. -/
def UniqueRequestTracker.Reset (_tracker : UniqueRequestTracker) : UniqueRequestTracker :=
  ⟨SyncMap.empty⟩

/-- `Count` ranges over the store doing `count++` for every entry. -/
def UniqueRequestTracker.Count (tracker : UniqueRequestTracker) : Nat :=
  tracker.uniqueRequests.Range (fun _ _ count => (count + 1, true)) 0

/-- Membership of an id in the tracker's set: `Load` finds the key. -/
def UniqueRequestTracker.member (tracker : UniqueRequestTracker) (id : Int) : Bool :=
  (tracker.uniqueRequests.Load id).isSome

/-- The ids stored in the tracker, in insertion order. -/
def UniqueRequestTracker.ids (tracker : UniqueRequestTracker) : List Int :=
  tracker.uniqueRequests.entries.map Prod.fst

/-- A sequence of `AddIfUnique` calls on one tracker, no `Reset` in between:
the list of returned booleans (in call order) and the final tracker. -/
def observeAll : UniqueRequestTracker → List Int → List Bool × UniqueRequestTracker
  | t, [] => ([], t)
  | t, id :: rest =>
    let r := t.AddIfUnique id
    let rs := observeAll r.2 rest
    (r.1 :: rs.1, rs.2)

/-- The results of those calls of a sequence whose argument was `x`. -/
def resultsFor (x : Int) : List Int → List Bool → List Bool
  | id :: ids, b :: bs => if id = x then b :: resultsFor x ids bs else resultsFor x ids bs
  | _, _ => []

/-! ## The reporting loop of main.go -/

/-- What happens to the tracker of `main.go`, one atomic action at a time:
a handler's `AddIfUnique id`, or one whole body of the loop of
`logUniqueRequestsEveryMinute` (a tick). -/
inductive Event where
  | observe (id : Int)
  | tick
deriving DecidableEq

/-- The service as the claims see it: the tracker, the counts handed to
`logger.Infof` so far (oldest first), and the values returned by the
`AddIfUnique` calls so far (oldest first). -/
structure Service where
  tracker : UniqueRequestTracker
  logged : List Nat
  results : List Bool
deriving DecidableEq

/-- The state at process start. -/
def Service.start : Service := ⟨NewUniqueRequestTracker, [], []⟩

/-- The body of the loop of `logUniqueRequestsEveryMinute`: read `Count`,
log it, `Reset`. Returns the logged count and the tracker afterwards. -/
def logUniqueRequestsEveryMinute_tick (t : UniqueRequestTracker) : Nat × UniqueRequestTracker :=
  let count := t.Count
  (count, t.Reset)

/-- One event applied to the service. -/
def Service.step (s : Service) : Event → Service
  | .observe id =>
    let r := s.tracker.AddIfUnique id
    ⟨r.2, s.logged, s.results ++ [r.1]⟩
  | .tick =>
    let r := logUniqueRequestsEveryMinute_tick s.tracker
    ⟨r.2, s.logged ++ [r.1], s.results⟩

/-- A sequence of events applied in order. -/
def Service.run (s : Service) (evs : List Event) : Service :=
  evs.foldl Service.step s

/-- The windows closed by the ticks of an event sequence: for the k-th tick,
the ids observed after the previous tick (or since `cur` began) and before it. -/
def closedWindowsFrom : List Int → List Event → List (List Int)
  | _, [] => []
  | cur, .observe id :: rest => closedWindowsFrom (cur ++ [id]) rest
  | cur, .tick :: rest => cur :: closedWindowsFrom [] rest

/-- The windows closed by the ticks of an event sequence starting at process start. -/
def closedWindows (evs : List Event) : List (List Int) := closedWindowsFrom [] evs

/-! ## The reporting loop, statement by statement -/

/-- Where the goroutine of `logUniqueRequestsEveryMinute` stands: waiting on the
ticker, after `count := Count()`, or after `logger.Infof(..., count)` and
before `Reset()`. -/
inductive TickPc where
  | idle
  | counted (count : Nat)
  | reported (count : Nat)
deriving DecidableEq

/-- An atomic action of an interleaving: a handler's `AddIfUnique id`, or the
next statement of the reporting goroutine. -/
inductive Action where
  | observe (id : Int)
  | sched
deriving DecidableEq

/-- The service with the position of the reporting goroutine. -/
structure Interleaved where
  tracker : UniqueRequestTracker
  pc : TickPc
  logged : List Nat
  results : List Bool
deriving DecidableEq

/-- The state at process start. -/
def Interleaved.start : Interleaved := ⟨NewUniqueRequestTracker, .idle, [], []⟩

/-- One atomic action. -/
def Interleaved.step (s : Interleaved) : Action → Interleaved
  | .observe id =>
    let r := s.tracker.AddIfUnique id
    ⟨r.2, s.pc, s.logged, s.results ++ [r.1]⟩
  | .sched =>
    match s.pc with
    | .idle => ⟨s.tracker, .counted s.tracker.Count, s.logged, s.results⟩
    | .counted count => ⟨s.tracker, .reported count, s.logged ++ [count], s.results⟩
    | .reported _ => ⟨s.tracker.Reset, .idle, s.logged, s.results⟩

/-- An interleaving applied in order. -/
def Interleaved.run (s : Interleaved) (acts : List Action) : Interleaved :=
  acts.foldl Interleaved.step s

/-- Whether an action is an `AddIfUnique` that returns true while a tick is
between its `Count()` and its `Reset()`. -/
def straddles (s : Interleaved) : Action → Bool
  | .observe id =>
    match s.pc with
    | .idle => false
    | _ => (s.tracker.AddIfUnique id).1
  | .sched => false

/-- The number of `AddIfUnique` calls of an interleaving that returned true
between some tick's `Count()` and its `Reset()`. -/
def straddlers : Interleaved → List Action → Nat
  | _, [] => 0
  | s, a :: rest => (if straddles s a then 1 else 0) + straddlers (s.step a) rest

/-- The count a state still owes to a report: the live `Count` when idle, the
captured count between `Count()` and the log call, nothing once logged. -/
def Interleaved.pending (s : Interleaved) : Nat :=
  match s.pc with
  | .idle => s.tracker.Count
  | .counted count => count
  | .reported _ => 0

/-! ## The Kafka variant (extension3/main.go) -/

/-- A `kafka.Message`: key and value. -/
structure KafkaMessage where
  Key : String
  Value : String
deriving DecidableEq

/-- What one tick of `sendUniqueRequestCountToKafkaEveryMinute` does: the
message handed to `WriteMessages`, the line logged, the tracker afterwards. -/
structure KafkaTickResult where
  message : KafkaMessage
  logLine : String
  tracker : UniqueRequestTracker
deriving DecidableEq

/-- The body of the loop of `sendUniqueRequestCountToKafkaEveryMinute`;
`writeErr` is what `kafkaProducer.WriteMessages` returns (`none` for nil). -/
def sendUniqueRequestCountToKafkaEveryMinute_tick (t : UniqueRequestTracker)
    (writeErr : Option String) : KafkaTickResult :=
  let count := t.Count
  let message : KafkaMessage := ⟨"unique-request-count", toString count⟩
  let line :=
    match writeErr with
    | some err => "Failed to send message to Kafka: " ++ err
    | none => "Sent unique request count to Kafka: " ++ toString count
  ⟨message, line, t.Reset⟩

/-- Events of the Kafka variant: a tick carries the outcome of its write. -/
inductive KafkaEvent where
  | observe (id : Int)
  | tick (writeErr : Option String)
deriving DecidableEq

/-- The Kafka variant: tracker, messages handed to the producer, messages the
producer accepted, log lines, `AddIfUnique` results (all oldest first). -/
structure KafkaService where
  tracker : UniqueRequestTracker
  written : List KafkaMessage
  delivered : List KafkaMessage
  log : List String
  results : List Bool
deriving DecidableEq

/-- One event of the Kafka variant. -/
def KafkaService.step (s : KafkaService) : KafkaEvent → KafkaService
  | .observe id =>
    let r := s.tracker.AddIfUnique id
    ⟨r.2, s.written, s.delivered, s.log, s.results ++ [r.1]⟩
  | .tick writeErr =>
    let r := sendUniqueRequestCountToKafkaEveryMinute_tick s.tracker writeErr
    ⟨r.tracker, s.written ++ [r.message],
      if writeErr.isNone then s.delivered ++ [r.message] else s.delivered,
      s.log ++ [r.logLine], s.results⟩

/-- A sequence of events of the Kafka variant. -/
def KafkaService.run (s : KafkaService) (evs : List KafkaEvent) : KafkaService :=
  evs.foldl KafkaService.step s

/-- The same event with its write succeeding. -/
def KafkaEvent.delivering : KafkaEvent → KafkaEvent
  | .observe id => .observe id
  | .tick _ => .tick none

/-- Whether an event is a tick. -/
def KafkaEvent.isTick : KafkaEvent → Bool
  | .observe _ => false
  | .tick _ => true

/-! ## Query binding (gin `ShouldBindQuery` on `Request`) -/

/-- The request structure: `ID int` with tags `form:"id" binding:"required"`,
`Endpoint string` with tag `form:"endpoint"`. -/
structure Request where
  ID : Int
  Endpoint : String
deriving DecidableEq

/-- The decoded URL query (`url.Values`): key/value pairs in order of appearance. -/
abbrev Query := List (String × String)

/-- The values given for a key, `form[key]`, in order. -/
def Query.values (q : Query) (key : String) : List String :=
  (q.filter (fun kv => kv.1 == key)).map Prod.snd

/-- The value of a decimal digit character. -/
def digitValue (c : Char) : Option Nat :=
  if '0' ≤ c ∧ c ≤ '9' then some (c.toNat - '0'.toNat) else none

/-- The digits loop of `strconv.ParseUint` in base 10: every character must be
a decimal digit. -/
def parseDigits : List Char → Nat → Option Nat
  | [], acc => some acc
  | c :: rest, acc =>
    match digitValue c with
    | some d => parseDigits rest (acc * 10 + d)
    | none => none

/-- `strconv.ParseInt(s, 10, 64)`: an optional sign, then at least one decimal
digit and nothing else; the value must fit in 64 bits (`none` is an error). -/
def ParseInt (s : String) : Option Int :=
  let cs := s.toList
  let neg := cs.head? == some '-'
  let body := if cs.head? == some '+' ∨ cs.head? == some '-' then cs.tail else cs
  if body.isEmpty then none
  else
    match parseDigits body 0 with
    | none => none
    | some un =>
      if !neg ∧ un ≥ 2 ^ 63 then none
      else if neg ∧ un > 2 ^ 63 then none
      else some (if neg then -(un : Int) else (un : Int))

/-- gin's `setIntField`: an empty value is read as "0", then `ParseInt`. -/
def setIntField (val : String) : Option Int :=
  ParseInt (if val = "" then "0" else val)

/-- Why binding failed. -/
inductive BindError where
  | parse
  | required
deriving DecidableEq

/-- gin's `ShouldBindQuery(&req)` for `Request`. Mapping: a field whose key is
absent keeps its zero value, otherwise it is set from the first value of the
key (`ID` through `setIntField`, a parse error fails the binding). Validation:
the `required` tag on `ID` rejects the zero value of `int`. -/
def ShouldBindQuery (q : Query) : Except BindError Request :=
  let id : Option Int :=
    match q.values "id" with
    | [] => some 0
    | val :: _ => setIntField val
  let endpoint : String :=
    match q.values "endpoint" with
    | [] => ""
    | val :: _ => val
  match id with
  | none => .error .parse
  | some n => if n = 0 then .error .required else .ok ⟨n, endpoint⟩

/-! ## The handler of main.go -/

/-- What `c.String(code, body)` writes. -/
structure Response where
  code : Nat
  body : String
deriving DecidableEq

/-- The URL `sendHTTPRequest` passes to `http.Get`: `Count` is read at this
point and formatted by `"%s?count=%d"`. -/
def sendHTTPRequest (t : UniqueRequestTracker) (endpoint : String) : String :=
  endpoint ++ "?count=" ++ toString t.Count

/-- The outcome of one `handleRequest`: the response written, the tracker
afterwards, and the URLs requested with `http.Get` (the outbound notifications). -/
structure Handled where
  response : Response
  tracker : UniqueRequestTracker
  outbound : List String
deriving DecidableEq

/-- What another goroutine may do to the tracker between two statements of a
handler: another handler's `AddIfUnique id`, or the `Reset()` of the reporting
loop. -/
inductive Interference where
  | add (id : Int)
  | reset
deriving DecidableEq

/-- The tracker after one action of another goroutine. -/
def Interference.apply (t : UniqueRequestTracker) : Interference → UniqueRequestTracker
  | .add id => (t.AddIfUnique id).2
  | .reset => t.Reset

/-- The tracker after a sequence of actions of other goroutines. -/
def interfere (t : UniqueRequestTracker) (others : List Interference) : UniqueRequestTracker :=
  others.foldl Interference.apply t

/-- `handleRequest` on tracker `t` for query `q`. `AddIfUnique` is one atomic
step (it holds the mutex); the `Count()` inside `sendHTTPRequest` is a later,
separate and unlocked read, so `between` lists what other goroutines did to the
tracker after `AddIfUnique` returned and before that read. -/
def handleRequest (t : UniqueRequestTracker) (q : Query) (between : List Interference) :
    Handled :=
  match ShouldBindQuery q with
  | .error _ => ⟨⟨400, "failed"⟩, t, []⟩
  | .ok req =>
    let r := t.AddIfUnique req.ID
    if r.1 then
      if req.Endpoint ≠ "" then
        let seen := interfere r.2 between
        ⟨⟨200, "ok"⟩, seen, [sendHTTPRequest seen req.Endpoint]⟩
      else ⟨⟨200, "ok"⟩, r.2, []⟩
    else ⟨⟨200, "ok"⟩, r.2, []⟩

/-! ## The Redis variant (redis/main.go) -/

/-- The Redis server as the variant uses it: the members of the set stored
under `redisKey`, and the error with which commands currently fail, if any. -/
structure RedisServer where
  members : List Int
  failure : Option String
deriving DecidableEq

/-- `redisClient.SAdd(ctx, redisKey, id).Result()`: the number of members
added and the error. A failing call returns 0 with the error. -/
def RedisServer.SAdd (r : RedisServer) (id : Int) : (Int × Option String) × RedisServer :=
  match r.failure with
  | some err => ((0, some err), r)
  | none =>
    if id ∈ r.members then ((0, none), r)
    else ((1, none), ⟨r.members ++ [id], none⟩)

/-- The outcome of `AddIfUniqueInRedis`: the boolean returned to the caller,
the lines written with `log.Printf`, and the server afterwards. -/
structure RedisAdd where
  result : Bool
  log : List String
  server : RedisServer
deriving DecidableEq

/-- `AddIfUniqueInRedis`: on error log and return false; otherwise return
`result == 1`. -/
def AddIfUniqueInRedis (r : RedisServer) (id : Int) : RedisAdd :=
  let reply := r.SAdd id
  match reply.1.2 with
  | some err => ⟨false, ["Failed to add ID to Redis: " ++ err], reply.2⟩
  | none => ⟨reply.1.1 == 1, [], reply.2⟩

/-! ## Basic facts about the store -/

theorem rangeLoop_count (es : List (Int × Bool)) (n : Nat) :
    SyncMap.rangeLoop (fun _ _ count => (count + 1, true)) es n = n + es.length := by
  induction es generalizing n with
  | nil => simp [SyncMap.rangeLoop]
  | cons e rest ih =>
    obtain ⟨k, v⟩ := e
    simp only [SyncMap.rangeLoop, if_true, ih, List.length_cons]
    omega

theorem Count_eq_length (t : UniqueRequestTracker) :
    t.Count = t.uniqueRequests.entries.length := by
  simp [UniqueRequestTracker.Count, SyncMap.Range, rangeLoop_count]

theorem Count_eq_ids_length (t : UniqueRequestTracker) : t.Count = t.ids.length := by
  simp [Count_eq_length, UniqueRequestTracker.ids]

theorem Load_isSome_iff (m : SyncMap) (key : Int) :
    (m.Load key).isSome = true ↔ key ∈ m.entries.map Prod.fst := by
  obtain ⟨es⟩ := m
  simp only [SyncMap.Load, Option.isSome_map']
  rw [List.find?_isSome]
  simp only [List.mem_map, beq_iff_eq]

theorem member_iff (t : UniqueRequestTracker) (id : Int) :
    t.member id = true ↔ id ∈ t.ids := by
  simp only [UniqueRequestTracker.member, UniqueRequestTracker.ids]
  exact Load_isSome_iff _ _

theorem AddIfUnique_of_member (t : UniqueRequestTracker) (id : Int) (h : id ∈ t.ids) :
    t.AddIfUnique id = (false, t) := by
  have hm := (member_iff t id).2 h
  simp only [UniqueRequestTracker.member] at hm
  obtain ⟨v, hv⟩ := Option.isSome_iff_exists.1 hm
  simp [UniqueRequestTracker.AddIfUnique, SyncMap.LoadOrStore, hv]

theorem AddIfUnique_of_not_member (t : UniqueRequestTracker) (id : Int) (h : id ∉ t.ids) :
    t.AddIfUnique id = (true, ⟨⟨t.uniqueRequests.entries ++ [(id, true)]⟩⟩) := by
  have hm : ¬ (t.member id = true) := fun hc => h ((member_iff t id).1 hc)
  simp only [UniqueRequestTracker.member, Option.isSome_iff_exists, not_exists] at hm
  have hn : t.uniqueRequests.Load id = none := by
    cases hl : t.uniqueRequests.Load id with
    | none => rfl
    | some v => exact absurd hl (hm v)
  simp [UniqueRequestTracker.AddIfUnique, SyncMap.LoadOrStore, hn]

theorem ids_AddIfUnique (t : UniqueRequestTracker) (id : Int) :
    (t.AddIfUnique id).2.ids = if id ∈ t.ids then t.ids else t.ids ++ [id] := by
  by_cases h : id ∈ t.ids
  · simp [AddIfUnique_of_member t id h, h]
  · rw [AddIfUnique_of_not_member t id h, if_neg h]
    simp [UniqueRequestTracker.ids]

theorem fst_AddIfUnique (t : UniqueRequestTracker) (id : Int) :
    (t.AddIfUnique id).1 = !decide (id ∈ t.ids) := by
  by_cases h : id ∈ t.ids
  · simp [AddIfUnique_of_member t id h, h]
  · simp [AddIfUnique_of_not_member t id h, h]

theorem member_eq_decide (t : UniqueRequestTracker) (id : Int) :
    t.member id = decide (id ∈ t.ids) := by
  by_cases h : id ∈ t.ids
  · simp [h, (member_iff t id).2 h]
  · have : ¬ (t.member id = true) := fun hc => h ((member_iff t id).1 hc)
    simp [h, this]

theorem ids_New : NewUniqueRequestTracker.ids = [] := rfl

theorem ids_Reset (t : UniqueRequestTracker) : t.Reset.ids = [] := rfl

theorem mem_ids_AddIfUnique (t : UniqueRequestTracker) (id y : Int) :
    y ∈ (t.AddIfUnique id).2.ids ↔ y = id ∨ y ∈ t.ids := by
  rw [ids_AddIfUnique]
  by_cases h : id ∈ t.ids
  · rw [if_pos h]
    constructor
    · exact fun hy => Or.inr hy
    · rintro (rfl | hy)
      · exact h
      · exact hy
  · rw [if_neg h]
    simp [or_comm]

theorem nodup_ids_AddIfUnique (t : UniqueRequestTracker) (id : Int) (h : t.ids.Nodup) :
    (t.AddIfUnique id).2.ids.Nodup := by
  rw [ids_AddIfUnique]
  by_cases hm : id ∈ t.ids
  · rw [if_pos hm]; exact h
  · rw [if_neg hm]
    refine List.Nodup.append h (List.nodup_singleton id) ?_
    intro a ha hb
    rw [List.mem_singleton] at hb
    exact hm (hb ▸ ha)

theorem mem_ids_observeAll (ids : List Int) (t : UniqueRequestTracker) (y : Int) :
    y ∈ (observeAll t ids).2.ids ↔ y ∈ ids ∨ y ∈ t.ids := by
  induction ids generalizing t with
  | nil => simp [observeAll]
  | cons id rest ih =>
    simp only [observeAll, ih, mem_ids_AddIfUnique, List.mem_cons]
    tauto

theorem nodup_ids_observeAll (ids : List Int) (t : UniqueRequestTracker) (h : t.ids.Nodup) :
    (observeAll t ids).2.ids.Nodup := by
  induction ids generalizing t with
  | nil => simpa [observeAll] using h
  | cons id rest ih =>
    simp only [observeAll]
    exact ih _ (nodup_ids_AddIfUnique t id h)

theorem Count_observeAll (ids : List Int) (t : UniqueRequestTracker) (h : t.ids.Nodup) :
    (observeAll t ids).2.Count = (ids.toFinset ∪ t.ids.toFinset).card := by
  rw [Count_eq_ids_length, ← List.toFinset_card_of_nodup (nodup_ids_observeAll ids t h)]
  congr 1
  ext y
  simp [mem_ids_observeAll]

theorem length_observeAll (ids : List Int) (t : UniqueRequestTracker) :
    (observeAll t ids).1.length = ids.length := by
  induction ids generalizing t with
  | nil => simp [observeAll]
  | cons id rest ih => simp [observeAll, ih]

theorem resultsFor_of_member (x : Int) (ids : List Int) (t : UniqueRequestTracker)
    (h : x ∈ t.ids) :
    resultsFor x ids (observeAll t ids).1 = List.replicate (ids.count x) false := by
  induction ids generalizing t with
  | nil => simp [observeAll, resultsFor]
  | cons id rest ih =>
    have hx : x ∈ (t.AddIfUnique id).2.ids := (mem_ids_AddIfUnique t id x).2 (Or.inr h)
    simp only [observeAll, resultsFor]
    by_cases e : id = x
    · subst e
      rw [if_pos rfl, ih _ hx, fst_AddIfUnique]
      simp [h, List.replicate_succ]
    · rw [if_neg e, ih _ hx, List.count_cons_of_ne (Ne.symm e)]

theorem resultsFor_of_not_member (x : Int) (ids : List Int) (t : UniqueRequestTracker)
    (h : x ∉ t.ids) (hpos : 0 < ids.count x) :
    resultsFor x ids (observeAll t ids).1 = true :: List.replicate (ids.count x - 1) false := by
  induction ids generalizing t with
  | nil => simp at hpos
  | cons id rest ih =>
    simp only [observeAll, resultsFor]
    by_cases e : id = x
    · subst e
      have hx : id ∈ (t.AddIfUnique id).2.ids := (mem_ids_AddIfUnique t id id).2 (Or.inl rfl)
      rw [if_pos rfl, resultsFor_of_member id rest _ hx, fst_AddIfUnique]
      simp [h]
    · have hx : x ∉ (t.AddIfUnique id).2.ids := by
        rw [mem_ids_AddIfUnique]
        rintro (rfl | hc)
        · exact e rfl
        · exact h hc
      rw [List.count_cons_of_ne (Ne.symm e)] at hpos ⊢
      rw [if_neg e, ih _ hx hpos]

theorem Count_AddIfUnique (t : UniqueRequestTracker) (id : Int) :
    (t.AddIfUnique id).2.Count = t.Count + (if (t.AddIfUnique id).1 then 1 else 0) := by
  by_cases h : id ∈ t.ids
  · simp [AddIfUnique_of_member t id h]
  · simp [AddIfUnique_of_not_member t id h, Count_eq_length]

theorem Count_Reset (t : UniqueRequestTracker) : t.Reset.Count = 0 := by
  rw [Count_eq_ids_length, ids_Reset]; rfl

theorem Count_eq_card (t : UniqueRequestTracker) (cur : List Int) (hnd : t.ids.Nodup)
    (hmem : ∀ y, y ∈ t.ids ↔ y ∈ cur) : t.Count = cur.toFinset.card := by
  rw [Count_eq_ids_length, ← List.toFinset_card_of_nodup hnd]
  congr 1
  ext y
  simp [hmem]

/-! ## Facts about the reporting loop -/

theorem service_run_cons (s : Service) (e : Event) (rest : List Event) :
    s.run (e :: rest) = (s.step e).run rest := rfl

theorem service_run_append (s : Service) (a b : List Event) :
    s.run (a ++ b) = (s.run a).run b := by
  simp [Service.run, List.foldl_append]

theorem service_logged_run (evs : List Event) (s : Service) (cur : List Int)
    (hnd : s.tracker.ids.Nodup) (hmem : ∀ y, y ∈ s.tracker.ids ↔ y ∈ cur) :
    (s.run evs).logged
      = s.logged ++ (closedWindowsFrom cur evs).map (fun w => w.toFinset.card) := by
  induction evs generalizing s cur with
  | nil => simp [Service.run, closedWindowsFrom]
  | cons e rest ih =>
    rw [service_run_cons]
    cases e with
    | observe id =>
      have h := ih (s.step (.observe id)) (cur ++ [id])
        (nodup_ids_AddIfUnique s.tracker id hnd)
        (by
          intro y
          simp only [Service.step, mem_ids_AddIfUnique, hmem, List.mem_append,
            List.mem_singleton]
          tauto)
      rw [h]
      simp [Service.step, closedWindowsFrom]
    | tick =>
      have h := ih (s.step .tick) []
        (by simp [Service.step, logUniqueRequestsEveryMinute_tick, ids_Reset])
        (by simp [Service.step, logUniqueRequestsEveryMinute_tick, ids_Reset])
      rw [h]
      simp [Service.step, logUniqueRequestsEveryMinute_tick, closedWindowsFrom,
        Count_eq_card s.tracker cur hnd hmem]

theorem interleaved_run_cons (s : Interleaved) (a : Action) (rest : List Action) :
    s.run (a :: rest) = (s.step a).run rest := rfl

theorem interleaved_step_accounting (s : Interleaved) (a : Action) :
    (s.step a).logged.sum + (s.step a).pending + (if straddles s a then 1 else 0)
        + s.results.count true
      = (s.step a).results.count true + s.logged.sum + s.pending := by
  obtain ⟨t, pc, logged, results⟩ := s
  cases a with
  | observe id =>
    cases pc with
    | idle =>
      simp only [Interleaved.step, Interleaved.pending, straddles, Count_AddIfUnique,
        List.count_append]
      by_cases hb : (t.AddIfUnique id).1 = true
      · simp [hb]
        omega
      · rw [Bool.not_eq_true] at hb
        simp [hb]
        omega
    | counted c =>
      simp only [Interleaved.step, Interleaved.pending, straddles, List.count_append]
      by_cases hb : (t.AddIfUnique id).1 = true
      · simp [hb]
        omega
      · rw [Bool.not_eq_true] at hb
        simp [hb]
        omega
    | reported c =>
      simp only [Interleaved.step, Interleaved.pending, straddles, List.count_append]
      by_cases hb : (t.AddIfUnique id).1 = true
      · simp [hb]
        omega
      · rw [Bool.not_eq_true] at hb
        simp [hb]
        omega
  | sched =>
    cases pc with
    | idle =>
      simp [Interleaved.step, Interleaved.pending, straddles]
      omega
    | counted c =>
      simp [Interleaved.step, Interleaved.pending, straddles]
      omega
    | reported c =>
      simp [Interleaved.step, Interleaved.pending, straddles, Count_Reset]
      omega

theorem interleaved_run_accounting (acts : List Action) (s : Interleaved) :
    (s.run acts).logged.sum + (s.run acts).pending + straddlers s acts + s.results.count true
      = (s.run acts).results.count true + s.logged.sum + s.pending := by
  induction acts generalizing s with
  | nil => simp [Interleaved.run, straddlers]; omega
  | cons a rest ih =>
    rw [interleaved_run_cons]
    have h1 := ih (s.step a)
    have h2 := interleaved_step_accounting s a
    simp only [straddlers]
    omega

/-! ## Facts about the Kafka variant -/

theorem kafka_run_cons (s : KafkaService) (e : KafkaEvent) (rest : List KafkaEvent) :
    s.run (e :: rest) = (s.step e).run rest := rfl

theorem kafka_run_delivering (evs : List KafkaEvent) (s r : KafkaService)
    (ht : s.tracker = r.tracker) (hr : s.results = r.results) (hw : s.written = r.written) :
    (s.run evs).tracker = (r.run (evs.map KafkaEvent.delivering)).tracker ∧
    (s.run evs).results = (r.run (evs.map KafkaEvent.delivering)).results ∧
    (s.run evs).written = (r.run (evs.map KafkaEvent.delivering)).written := by
  induction evs generalizing s r with
  | nil => exact ⟨ht, hr, hw⟩
  | cons e rest ih =>
    rw [List.map_cons, kafka_run_cons, kafka_run_cons]
    cases e with
    | observe id =>
      exact ih _ _ (by simp [KafkaService.step, KafkaEvent.delivering, ht])
        (by simp [KafkaService.step, KafkaEvent.delivering, ht, hr])
        (by simp [KafkaService.step, KafkaEvent.delivering, hw])
    | tick w =>
      exact ih _ _
        (by simp [KafkaService.step, KafkaEvent.delivering,
          sendUniqueRequestCountToKafkaEveryMinute_tick, ht])
        (by simp [KafkaService.step, KafkaEvent.delivering, hr])
        (by simp [KafkaService.step, KafkaEvent.delivering,
          sendUniqueRequestCountToKafkaEveryMinute_tick, ht, hw])

theorem kafka_written_length (evs : List KafkaEvent) (s : KafkaService) :
    (s.run evs).written.length = s.written.length + evs.countP KafkaEvent.isTick := by
  induction evs generalizing s with
  | nil => simp [KafkaService.run]
  | cons e rest ih =>
    rw [kafka_run_cons, ih]
    cases e with
    | observe id => simp [KafkaService.step, KafkaEvent.isTick]
    | tick w =>
      simp [KafkaService.step, KafkaEvent.isTick]
      omega

/-! ## Facts about the handler -/

theorem interfere_cons (t : UniqueRequestTracker) (a : Interference)
    (rest : List Interference) :
    interfere t (a :: rest) = interfere (Interference.apply t a) rest := rfl

theorem interfere_without_reset (others : List Interference) (t : UniqueRequestTracker)
    (hno : ∀ a ∈ others, a ≠ Interference.reset) :
    t.Count ≤ (interfere t others).Count ∧
    ∀ y, y ∈ t.ids → y ∈ (interfere t others).ids := by
  induction others generalizing t with
  | nil => exact ⟨le_refl _, fun _ hy => hy⟩
  | cons a rest ih =>
    have hrest : ∀ b ∈ rest, b ≠ Interference.reset :=
      fun b hb => hno b (List.mem_cons_of_mem a hb)
    rw [interfere_cons]
    cases a with
    | add id =>
      obtain ⟨hc, hm⟩ := ih (Interference.apply t (.add id)) hrest
      have hstep := Count_AddIfUnique t id
      simp only [Interference.apply] at hc hm ⊢
      refine ⟨?_, ?_⟩
      · have : t.Count ≤ (t.AddIfUnique id).2.Count := by
          rw [hstep]; exact Nat.le_add_right _ _
        exact le_trans this hc
      · intro y hy
        exact hm y ((mem_ids_AddIfUnique t id y).2 (Or.inr hy))
    | reset => exact absurd rfl (hno .reset (List.mem_cons_self _ _))

theorem handleRequest_response_eq (t : UniqueRequestTracker) (q : Query)
    (between : List Interference) :
    (handleRequest t q between).response
      = match ShouldBindQuery q with
        | .error _ => ⟨400, "failed"⟩
        | .ok _ => ⟨200, "ok"⟩ := by
  unfold handleRequest
  cases hb : ShouldBindQuery q with
  | error e => rfl
  | ok req =>
    simp only
    split_ifs <;> rfl

theorem handleRequest_outbound_eq (t : UniqueRequestTracker) (q : Query) (req : Request)
    (between : List Interference) (hbind : ShouldBindQuery q = .ok req) :
    (handleRequest t q between).outbound
      = if (t.AddIfUnique req.ID).1 = true then
          if req.Endpoint ≠ "" then
            [sendHTTPRequest (interfere (t.AddIfUnique req.ID).2 between) req.Endpoint]
          else []
        else [] := by
  unfold handleRequest
  rw [hbind]
  simp only
  split_ifs <;> rfl

/-! ## The claims -/

/-- C1: for every tracker state and every id, `AddIfUnique id` returns true if
and only if `id` was not a member of the tracker's set before the call; after
the call `id` is a member in either case. From an empty tracker the calls
`AddIfUnique 1`, `AddIfUnique 1`, `AddIfUnique 2` return true, false, true. -/
theorem AddIfUnique_contract (t : UniqueRequestTracker) (id : Int) :
    ((t.AddIfUnique id).1 = true ↔ t.member id = false) ∧
    (t.AddIfUnique id).2.member id = true ∧
    (observeAll NewUniqueRequestTracker [1, 1, 2]).1 = [true, false, true] := by
  refine ⟨?_, ?_, by decide⟩
  · rw [fst_AddIfUnique, member_eq_decide]
    simp
  · rw [member_iff, mem_ids_AddIfUnique]
    exact Or.inl rfl

/-- C2 (idempotent membership): on a tracker in which `x` is not yet a member
(a fresh tracker, or one just Reset), for every sequence of `AddIfUnique` calls
containing exactly `n ≥ 1` calls with argument `x`, interleaved in any order
with calls for other ids, the first of those `n` calls returns true and the
other `n - 1` return false: exactly one true. -/
theorem idempotent_membership (t : UniqueRequestTracker) (x : Int) (n : Nat) (ids : List Int)
    (hnew : t.member x = false) (hn : 1 ≤ n) (hcount : ids.count x = n) :
    resultsFor x ids (observeAll t ids).1 = true :: List.replicate (n - 1) false ∧
    (resultsFor x ids (observeAll t ids).1).count true = 1 ∧
    (resultsFor x ids (observeAll t ids).1).count false = n - 1 := by
  have hx : x ∉ t.ids := by
    intro hc
    rw [(member_iff t x).2 hc] at hnew
    exact Bool.noConfusion hnew
  have hres := resultsFor_of_not_member x ids t hx (by omega)
  rw [hcount] at hres
  rw [hres]
  refine ⟨rfl, ?_, ?_⟩
  · simp [List.count_cons, List.count_replicate]
  · simp [List.count_cons, List.count_replicate]

/-- Witness for C2: three calls for id 7 interleaved with calls for 3 and 9 on
a fresh tracker. -/
theorem idempotent_membership_witness :
    resultsFor 7 [3, 7, 9, 7, 3, 7] (observeAll NewUniqueRequestTracker [3, 7, 9, 7, 3, 7]).1
      = true :: List.replicate (3 - 1) false ∧
    (resultsFor 7 [3, 7, 9, 7, 3, 7]
      (observeAll NewUniqueRequestTracker [3, 7, 9, 7, 3, 7]).1).count true = 1 ∧
    (resultsFor 7 [3, 7, 9, 7, 3, 7]
      (observeAll NewUniqueRequestTracker [3, 7, 9, 7, 3, 7]).1).count false = 3 - 1 :=
  idempotent_membership NewUniqueRequestTracker 7 3 [3, 7, 9, 7, 3, 7]
    (by decide) (by decide) (by decide)

/-- C3 (count correctness): for every finite list of ids passed one by one to
`AddIfUnique` on a fresh tracker with no Reset, `Count` afterwards is the
number of distinct ids of the list (the cardinality of its set of elements,
hence independent of order and multiplicity); 1,2,2,3,3,3 gives 3 and `K`
pairwise distinct ids give `K`. -/
theorem Count_correct (ids : List Int) :
    (observeAll NewUniqueRequestTracker ids).2.Count = ids.toFinset.card ∧
    (observeAll NewUniqueRequestTracker [1, 2, 2, 3, 3, 3]).2.Count = 3 ∧
    (ids.Nodup → (observeAll NewUniqueRequestTracker ids).2.Count = ids.length) := by
  have h := Count_observeAll ids NewUniqueRequestTracker (by simp [ids_New])
  simp only [ids_New, List.toFinset_nil, Finset.union_empty] at h
  refine ⟨h, by decide, ?_⟩
  intro hnd
  rw [h, List.toFinset_card_of_nodup hnd]

/-- C4 (rollover isolation): for every tracker state and every id, after
`Reset` the tracker is empty (`Count` is 0) and `AddIfUnique id` returns true,
even if `id` was a member before; `AddIfUnique 7`, `Reset`, `AddIfUnique 7` on
a fresh tracker returns true both times. -/
theorem Reset_isolation (t : UniqueRequestTracker) (id : Int) :
    t.Reset.Count = 0 ∧
    (t.Reset.AddIfUnique id).1 = true ∧
    ((t.AddIfUnique id).2.Reset.AddIfUnique id).1 = true ∧
    (NewUniqueRequestTracker.AddIfUnique 7).1 = true ∧
    ((NewUniqueRequestTracker.AddIfUnique 7).2.Reset.AddIfUnique 7).1 = true := by
  refine ⟨?_, ?_, ?_, by decide, by decide⟩
  · rw [Count_eq_ids_length, ids_Reset]; rfl
  · rw [fst_AddIfUnique, ids_Reset]; simp
  · rw [fst_AddIfUnique, ids_Reset]; simp

/-- C5 (window report): for every sequence of `AddIfUnique` calls and
uninterrupted ticks on a fresh tracker, the count the k-th tick hands to the
sink is the number of distinct ids observed after the (k-1)-th tick (or since
start) and before the k-th tick; `Count` is 0 immediately after each tick and
any id observed next is new. Observing 10 and 11, a tick, then 10 again: the
tick reports 2 and the last observe returns true. -/
theorem window_report (evs : List Event) (id : Int) :
    (Service.start.run evs).logged = (closedWindows evs).map (fun w => w.toFinset.card) ∧
    (Service.start.run (evs ++ [.tick])).tracker.Count = 0 ∧
    ((Service.start.run (evs ++ [.tick])).tracker.AddIfUnique id).1 = true ∧
    (Service.start.run [.observe 10, .observe 11, .tick, .observe 10]).logged = [2] ∧
    (Service.start.run [.observe 10, .observe 11, .tick, .observe 10]).results
      = [true, true, true] := by
  refine ⟨?_, ?_, ?_, by decide, by decide⟩
  · have h := service_logged_run evs Service.start []
      (by simp [Service.start, ids_New]) (by simp [Service.start, ids_New])
    simpa [Service.start, closedWindows] using h
  · rw [service_run_append]
    simp [Service.run, Service.step, logUniqueRequestsEveryMinute_tick, Count_Reset]
  · rw [service_run_append]
    simp [Service.run, Service.step, logUniqueRequestsEveryMinute_tick, fst_AddIfUnique, ids_Reset]

/-- C9 (sink failure is non-fatal): in the Kafka variant, one tick leaves the
tracker in the same empty state and hands the producer the same message
whether `WriteMessages` fails or succeeds; every tick of a run is executed
(one message handed over per tick, whatever the earlier outcomes), and the
tracker, the `AddIfUnique` results and the counts of all ticks are those of
the run in which every write succeeds. -/
theorem kafka_sink_failure_nonfatal (t : UniqueRequestTracker) (err : String)
    (s : KafkaService) (evs : List KafkaEvent) :
    (sendUniqueRequestCountToKafkaEveryMinute_tick t (some err)).tracker
      = (sendUniqueRequestCountToKafkaEveryMinute_tick t none).tracker ∧
    (sendUniqueRequestCountToKafkaEveryMinute_tick t (some err)).tracker.Count = 0 ∧
    (sendUniqueRequestCountToKafkaEveryMinute_tick t (some err)).message
      = (sendUniqueRequestCountToKafkaEveryMinute_tick t none).message ∧
    (s.run evs).tracker = (s.run (evs.map KafkaEvent.delivering)).tracker ∧
    (s.run evs).results = (s.run (evs.map KafkaEvent.delivering)).results ∧
    (s.run evs).written = (s.run (evs.map KafkaEvent.delivering)).written ∧
    (s.run evs).written.length = s.written.length + evs.countP KafkaEvent.isTick := by
  have h := kafka_run_delivering evs s s rfl rfl rfl
  refine ⟨rfl, ?_, rfl, h.1, h.2.1, h.2.2, kafka_written_length evs s⟩
  simp [sendUniqueRequestCountToKafkaEveryMinute_tick, Count_Reset]

/-- C10, as amended: in every interleaving of `AddIfUnique` calls with the
statements of the reporting loop, once every started tick has finished, the
sum of the reported counts plus the current `Count` plus the number of
`AddIfUnique` calls that returned true between a tick's `Count()` and its
`Reset()` equals the number of `AddIfUnique` calls that returned true. So no
call is counted twice, and a call is missing from the reports only if it ran
between a tick's `Count()` and `Reset()`. -/
theorem rollover_accounting (acts : List Action)
    (hidle : (Interleaved.start.run acts).pc = .idle) :
    (Interleaved.start.run acts).logged.sum + (Interleaved.start.run acts).tracker.Count
        + straddlers Interleaved.start acts
      = (Interleaved.start.run acts).results.count true ∧
    (Interleaved.start.run acts).logged.sum + (Interleaved.start.run acts).tracker.Count
      ≤ (Interleaved.start.run acts).results.count true ∧
    (straddlers Interleaved.start acts = 0 →
      (Interleaved.start.run acts).logged.sum + (Interleaved.start.run acts).tracker.Count
        = (Interleaved.start.run acts).results.count true) := by
  have h := interleaved_run_accounting acts Interleaved.start
  have hp : (Interleaved.start.run acts).pending = (Interleaved.start.run acts).tracker.Count := by
    simp [Interleaved.pending, hidle]
  have h0 : Interleaved.start.results.count true = 0 := rfl
  have h1 : Interleaved.start.logged.sum = 0 := rfl
  have h2 : Interleaved.start.pending = 0 := rfl
  rw [hp, h0, h1, h2] at h
  refine ⟨by omega, by omega, fun hz => by omega⟩

/-- Witness for C10: two ids observed, a tick during which a third id arrives
between `Count()` and `Reset()`, then one more observation. -/
theorem rollover_accounting_witness :
    (Interleaved.start.run
        [.observe 1, .observe 2, .sched, .observe 3, .sched, .sched, .observe 1]).logged.sum
      + (Interleaved.start.run
        [.observe 1, .observe 2, .sched, .observe 3, .sched, .sched, .observe 1]).tracker.Count
      + straddlers Interleaved.start
        [.observe 1, .observe 2, .sched, .observe 3, .sched, .sched, .observe 1]
      = (Interleaved.start.run
        [.observe 1, .observe 2, .sched, .observe 3, .sched, .sched, .observe 1]).results.count
          true ∧
    (Interleaved.start.run
        [.observe 1, .observe 2, .sched, .observe 3, .sched, .sched, .observe 1]).logged.sum
      + (Interleaved.start.run
        [.observe 1, .observe 2, .sched, .observe 3, .sched, .sched, .observe 1]).tracker.Count
      ≤ (Interleaved.start.run
        [.observe 1, .observe 2, .sched, .observe 3, .sched, .sched, .observe 1]).results.count
          true ∧
    (straddlers Interleaved.start
        [.observe 1, .observe 2, .sched, .observe 3, .sched, .sched, .observe 1] = 0 →
      (Interleaved.start.run
        [.observe 1, .observe 2, .sched, .observe 3, .sched, .sched, .observe 1]).logged.sum
      + (Interleaved.start.run
        [.observe 1, .observe 2, .sched, .observe 3, .sched, .sched, .observe 1]).tracker.Count
      = (Interleaved.start.run
        [.observe 1, .observe 2, .sched, .observe 3, .sched, .sched, .observe 1]).results.count
          true) :=
  rollover_accounting [.observe 1, .observe 2, .sched, .observe 3, .sched, .sched, .observe 1]
    (by decide)

/-- C10 as stated fails: the tick reads `Count()` (0), then `AddIfUnique 5`
returns true, then the tick logs 0 and runs `Reset()`. One call returned true,
but the reports sum to 0 and the current `Count` is 0. -/
theorem rollover_loses_straddling_observe :
    (Interleaved.start.run [.sched, .observe 5, .sched, .sched]).pc = .idle ∧
    (Interleaved.start.run [.sched, .observe 5, .sched, .sched]).results = [true] ∧
    (Interleaved.start.run [.sched, .observe 5, .sched, .sched]).logged = [0] ∧
    (Interleaved.start.run [.sched, .observe 5, .sched, .sched]).tracker.Count = 0 ∧
    (Interleaved.start.run [.sched, .observe 5, .sched, .sched]).logged.sum
        + (Interleaved.start.run [.sched, .observe 5, .sched, .sched]).tracker.Count
      ≠ (Interleaved.start.run [.sched, .observe 5, .sched, .sched]).results.count true := by
  decide

/-- C6, as amended: the response of `handleRequest` depends only on the `id`
query parameter. It is 200 "ok" exactly when the first `id` value binds to a
non-zero integer (negative numbers included), whatever the tracker holds (new
or duplicate id), whatever other goroutines do meanwhile, and whether or not
an endpoint is supplied; it is 400 "failed" exactly when `id` is missing, is
not a 64-bit decimal integer, or is zero (the `required` binding rejects the
zero value). -/
theorem handleRequest_response (t : UniqueRequestTracker) (q : Query)
    (between : List Interference) :
    ((handleRequest t q between).response = ⟨200, "ok"⟩ ↔
      ∃ val rest n, q.values "id" = val :: rest ∧ setIntField val = some n ∧ n ≠ 0) ∧
    ((handleRequest t q between).response = ⟨400, "failed"⟩ ↔
      q.values "id" = [] ∨
      ∃ val rest, q.values "id" = val :: rest ∧
        (setIntField val = none ∨ setIntField val = some 0)) ∧
    (handleRequest NewUniqueRequestTracker [("id", "-5")] []).response = ⟨200, "ok"⟩ ∧
    (handleRequest (NewUniqueRequestTracker.AddIfUnique 2).2 [("id", "2")] []).response
      = ⟨200, "ok"⟩ ∧
    (handleRequest NewUniqueRequestTracker [("id", "3"), ("endpoint", "http://h/p")]
      []).response = ⟨200, "ok"⟩ ∧
    (handleRequest NewUniqueRequestTracker [] []).response = ⟨400, "failed"⟩ ∧
    (handleRequest NewUniqueRequestTracker [("id", "abc")] []).response
      = ⟨400, "failed"⟩ := by
  refine ⟨?_, ?_, by decide, by decide, by decide, by decide, by decide⟩
  · rw [handleRequest_response_eq]
    unfold ShouldBindQuery
    cases hv : q.values "id" with
    | nil => simp
    | cons val rest =>
      cases hs : setIntField val with
      | none => simp [hs]
      | some n =>
        by_cases hn : n = 0
        · simp [hs, hn]
        · simp [hs, hn]
  · rw [handleRequest_response_eq]
    unfold ShouldBindQuery
    cases hv : q.values "id" with
    | nil => simp
    | cons val rest =>
      cases hs : setIntField val with
      | none => simp [hs]
      | some n =>
        by_cases hn : n = 0
        · simp [hs, hn]
        · simp [hs, hn]

/-- C6 as stated fails: the request `?id=0` carries an integer id (`ParseInt`
accepts "0" as 0), yet `handleRequest` answers 400 "failed". -/
theorem handleRequest_rejects_zero_id :
    ParseInt "0" = some 0 ∧
    (handleRequest NewUniqueRequestTracker [("id", "0")] []).response = ⟨400, "failed"⟩ := by
  decide

/-- C7, as amended: for every tracker state and every successfully bound
request, `handleRequest` issues an outbound notification if and only if
`AddIfUnique` returned true and the endpoint is non-empty; there is then exactly
one, to `endpoint?count=N`, where `N` is `Count` as `sendHTTPRequest` reads it:
after the insertion and after whatever other goroutines did to the tracker in
between. If nothing ran in between, `N` is one more than `Count` before the
call, at least 1, and the number of stored ids, this id among them. If only
other insertions ran in between, `N` is at least that and this id is still
stored. A duplicate id or an empty endpoint triggers no notification. -/
theorem handleRequest_notification (t : UniqueRequestTracker) (q : Query) (req : Request)
    (between : List Interference) (hbind : ShouldBindQuery q = .ok req) :
    ((handleRequest t q between).outbound ≠ [] ↔
      (t.AddIfUnique req.ID).1 = true ∧ req.Endpoint ≠ "") ∧
    ((handleRequest t q between).outbound ≠ [] →
      (handleRequest t q between).outbound
        = [req.Endpoint ++ "?count="
            ++ toString (interfere (t.AddIfUnique req.ID).2 between).Count]) ∧
    ((handleRequest t q []).outbound ≠ [] →
      (handleRequest t q []).outbound
          = [req.Endpoint ++ "?count=" ++ toString (t.AddIfUnique req.ID).2.Count] ∧
        (t.AddIfUnique req.ID).2.Count = t.Count + 1 ∧
        1 ≤ (t.AddIfUnique req.ID).2.Count ∧
        (t.AddIfUnique req.ID).2.Count = (t.AddIfUnique req.ID).2.ids.length ∧
        req.ID ∈ (t.AddIfUnique req.ID).2.ids ∧
        (t.ids.Nodup → (t.AddIfUnique req.ID).2.ids.Nodup)) ∧
    ((handleRequest t q between).outbound ≠ [] →
      (∀ a ∈ between, a ≠ Interference.reset) →
        t.Count + 1 ≤ (interfere (t.AddIfUnique req.ID).2 between).Count ∧
        req.ID ∈ (interfere (t.AddIfUnique req.ID).2 between).ids) ∧
    (t.member req.ID = true → (handleRequest t q between).outbound = []) ∧
    (req.Endpoint = "" → (handleRequest t q between).outbound = []) := by
  have hout := handleRequest_outbound_eq t q req
  have hiff : ∀ others, (handleRequest t q others).outbound ≠ [] ↔
      (t.AddIfUnique req.ID).1 = true ∧ req.Endpoint ≠ "" := by
    intro others
    rw [hout others hbind]
    by_cases h1 : (t.AddIfUnique req.ID).1 = true
    · by_cases h2 : req.Endpoint = ""
      · simp [h1, h2]
      · simp [h1, h2]
    · simp [h1]
  have hsent : ∀ others, (handleRequest t q others).outbound ≠ [] →
      (handleRequest t q others).outbound
        = [req.Endpoint ++ "?count="
            ++ toString (interfere (t.AddIfUnique req.ID).2 others).Count] := by
    intro others hne
    obtain ⟨h1, h2⟩ := (hiff others).1 hne
    rw [hout others hbind, if_pos h1, if_pos h2]
    rfl
  have hinc : (t.AddIfUnique req.ID).1 = true →
      (t.AddIfUnique req.ID).2.Count = t.Count + 1 := by
    intro h1
    have hc := Count_AddIfUnique t req.ID
    rw [h1, if_pos rfl] at hc
    exact hc
  have hself : req.ID ∈ (t.AddIfUnique req.ID).2.ids :=
    (mem_ids_AddIfUnique t req.ID req.ID).2 (Or.inl rfl)
  refine ⟨hiff between, hsent between, ?_, ?_, ?_, ?_⟩
  · intro hne
    obtain ⟨h1, _⟩ := (hiff []).1 hne
    have hc := hinc h1
    exact ⟨hsent [] hne, hc, by omega, Count_eq_ids_length _, hself,
      nodup_ids_AddIfUnique t req.ID⟩
  · intro hne hno
    obtain ⟨h1, _⟩ := (hiff between).1 hne
    obtain ⟨hle, hmem⟩ := interfere_without_reset between (t.AddIfUnique req.ID).2 hno
    have hc := hinc h1
    exact ⟨by omega, hmem req.ID hself⟩
  · intro hm
    have hmem := (member_iff t req.ID).1 hm
    rw [hout between hbind, AddIfUnique_of_member t req.ID hmem]
    simp
  · intro he
    rw [hout between hbind]
    simp [he]

/-- Witness for C7: a new id 3 with an endpoint, on a tracker that already
holds ids 1 and 2, while another handler inserts id 4 before the count is read. -/
theorem handleRequest_notification_witness :
    ((handleRequest (observeAll NewUniqueRequestTracker [1, 2]).2
        [("id", "3"), ("endpoint", "http://h/p")] [.add 4]).outbound ≠ [] ↔
      ((observeAll NewUniqueRequestTracker [1, 2]).2.AddIfUnique
        (Request.mk 3 "http://h/p").ID).1 = true ∧
      (Request.mk 3 "http://h/p").Endpoint ≠ "") ∧
    (handleRequest (observeAll NewUniqueRequestTracker [1, 2]).2
        [("id", "3"), ("endpoint", "http://h/p")] [.add 4]).outbound = ["http://h/p?count=4"] ∧
    (handleRequest (observeAll NewUniqueRequestTracker [1, 2]).2
        [("id", "3"), ("endpoint", "http://h/p")] []).outbound = ["http://h/p?count=3"] :=
  ⟨(handleRequest_notification (observeAll NewUniqueRequestTracker [1, 2]).2
      [("id", "3"), ("endpoint", "http://h/p")] ⟨3, "http://h/p"⟩ [.add 4] rfl).1,
    by decide, by decide⟩

/-- C7 as stated fails: on a tracker holding 1 and 2, the request
`?id=3&endpoint=http://h/p` binds, `AddIfUnique 3` returns true and leaves
three ids; the reporting loop's `Reset()` runs before `sendHTTPRequest` reads
`Count()`, and the notification carries `count=0`: not the number of ids
including this one, and not at least 1. With two other insertions in between
instead, it carries `count=5`. -/
theorem handleRequest_notification_count_after_reset :
    ShouldBindQuery [("id", "3"), ("endpoint", "http://h/p")] = .ok ⟨3, "http://h/p"⟩ ∧
    ((observeAll NewUniqueRequestTracker [1, 2]).2.AddIfUnique 3).1 = true ∧
    ((observeAll NewUniqueRequestTracker [1, 2]).2.AddIfUnique 3).2.Count = 3 ∧
    (handleRequest (observeAll NewUniqueRequestTracker [1, 2]).2
        [("id", "3"), ("endpoint", "http://h/p")] [.reset]).outbound
      = ["http://h/p?count=0"] ∧
    (handleRequest (observeAll NewUniqueRequestTracker [1, 2]).2
        [("id", "3"), ("endpoint", "http://h/p")] [.add 4, .add 5]).outbound
      = ["http://h/p?count=5"] :=
  ⟨rfl, by decide, by decide, by decide, by decide⟩

/-- C8, as amended: in the Redis variant a store failure on SADD is not
distinguishable by the caller from "not unique": `AddIfUniqueInRedis` returns
false when SADD returns an error and false when SADD succeeds and reports the
id already present. Only the log differs: the failure writes one line, the
duplicate writes none. -/
theorem AddIfUniqueInRedis_failure_as_duplicate (id : Int) (down up : RedisServer)
    (err : String) (hdown : (down.SAdd id).1.2 = some err)
    (hup : (up.SAdd id).1 = (0, none)) :
    (AddIfUniqueInRedis down id).result = false ∧
    (AddIfUniqueInRedis up id).result = false ∧
    (AddIfUniqueInRedis down id).result = (AddIfUniqueInRedis up id).result ∧
    (AddIfUniqueInRedis down id).log = ["Failed to add ID to Redis: " ++ err] ∧
    (AddIfUniqueInRedis up id).log = [] := by
  have hu2 : (up.SAdd id).1.2 = none := by rw [hup]
  have hu1 : (up.SAdd id).1.1 = 0 := by rw [hup]
  have hd : (AddIfUniqueInRedis down id).result = false := by
    simp only [AddIfUniqueInRedis, hdown]
  have hu : (AddIfUniqueInRedis up id).result = false := by
    simp only [AddIfUniqueInRedis, hu2, hu1]
    decide
  refine ⟨hd, hu, by rw [hd, hu], ?_, ?_⟩
  · simp only [AddIfUniqueInRedis, hdown]
  · simp only [AddIfUniqueInRedis, hu2]

/-- Witness for C8: id 5 against an unreachable server and against a server
that already holds 5. -/
theorem AddIfUniqueInRedis_failure_as_duplicate_witness :
    (AddIfUniqueInRedis ⟨[], some "connection refused"⟩ 5).result = false ∧
    (AddIfUniqueInRedis ⟨[5], none⟩ 5).result = false ∧
    (AddIfUniqueInRedis ⟨[], some "connection refused"⟩ 5).result
      = (AddIfUniqueInRedis ⟨[5], none⟩ 5).result ∧
    (AddIfUniqueInRedis ⟨[], some "connection refused"⟩ 5).log
      = ["Failed to add ID to Redis: " ++ "connection refused"] ∧
    (AddIfUniqueInRedis ⟨[5], none⟩ 5).log = [] :=
  AddIfUniqueInRedis_failure_as_duplicate 5 ⟨[], some "connection refused"⟩ ⟨[5], none⟩
    "connection refused" (by decide) (by decide)

/-- C8 as stated fails: for id 5, the result given to the caller when SADD
returns an error equals the result given when SADD succeeds and reports 5
already a member (both false). -/
theorem AddIfUniqueInRedis_failure_not_distinct :
    (RedisServer.SAdd ⟨[], some "connection refused"⟩ 5).1 = (0, some "connection refused") ∧
    (RedisServer.SAdd ⟨[5], none⟩ 5).1 = (0, none) ∧
    (AddIfUniqueInRedis ⟨[], some "connection refused"⟩ 5).result
      = (AddIfUniqueInRedis ⟨[5], none⟩ 5).result := by
  decide

end Verve
